import Mathlib

/-!
# Verification of the restaurant billing/ledger core

Shallow embedding of the `badshahpizza` restaurant point-of-sale system:
the SQL schema (tables, CHECK constraints, row-level-security policies,
ON DELETE CASCADE foreign keys), the `create-employee` edge function, and
the billing core (tax engine, totals calculator, inventory ledger,
payment reconciler, order state machine).  The billing-core operations
themselves ship no implementation in this repository — only their schema
declarations and UI readers do — so those operations are modelled from
the specification, as marked on each definition.

All money and quantity amounts are modelled as exact rationals (`ℚ`),
matching the unconstrained `numeric` columns of the schema.
-/

/-- The rounding tolerance ε used by the payment reconciler and the
split-payment check: 0.01 currency unit. -/
def eps : ℚ := 1 / 100

/-- The error taxonomy of the billing core.  All constructors but
`InvalidPaymentAmount` come from the spec's §7 taxonomy;
`InvalidPaymentAmount` names the (spec-unnamed) rejection of a
non-positive payment amount by `apply_payment`. -/
inductive BillingError
  | InvalidLineItem
  | InvalidDiscount
  | Overpayment
  | SplitMismatch
  | AlreadyFinalized
  | Contention
  | NotFound
  | CorruptionDetected
  | InvalidPaymentAmount
deriving DecidableEq, Repr

/-- A CGST/SGST/IGST tax split for one line. -/
structure TaxSplit where
  cgst : ℚ
  sgst : ℚ
  igst : ℚ
deriving DecidableEq, Repr

/-- Round-half-up to 2 decimal places: `⌊100·x + 1/2⌋ / 100` (ties go
towards +∞, the usual half-up convention). -/
def roundHalfUp2 (x : ℚ) : ℚ := ⌊x * 100 + 1 / 2⌋ / 100

/-- Modelled from the spec: the Tax Engine (§4.1) — the engine's
implementation is not part of this repository, only the `cgst`/`sgst`/
`igst` columns it fills are.  If the buyer state is unknown (`none`) or
equals the seller state, the rate is split evenly into CGST and SGST
(`cgst = sgst = subtotal × rate / 200`, `igst = 0`); if the buyer state
differs, `igst = subtotal × rate / 100` and `cgst = sgst = 0`.  Each
tax component is rounded to 2 decimal places using round-half-up, so
that totals computed from the components sum exactly. -/
def computeTax (sellerState : String) (buyerState : Option String)
    (subtotal rate : ℚ) : TaxSplit :=
  match buyerState with
  | none =>
    ⟨roundHalfUp2 (subtotal * rate / 200), roundHalfUp2 (subtotal * rate / 200), 0⟩
  | some b =>
    if b = sellerState then
      ⟨roundHalfUp2 (subtotal * rate / 200), roundHalfUp2 (subtotal * rate / 200), 0⟩
    else ⟨0, 0, roundHalfUp2 (subtotal * rate / 100)⟩

/-- A line item `(quantity, unit_price, gst_rate)`, as in the
`invoice_items` / `kot_items` tables. -/
structure LineItem where
  quantity : ℚ
  unit_price : ℚ
  gst_rate : ℚ
deriving DecidableEq, Repr

/-- `line_total = quantity × unit_price`. -/
def lineTotal (it : LineItem) : ℚ := it.quantity * it.unit_price

/-- `subtotal = Σ line_total_i`. -/
def subtotalOf (items : List LineItem) : ℚ := (items.map lineTotal).sum

/-- The fixed discount is pro-rated across lines by
`line_total_i / subtotal`: the taxable base of a line is
`line_total × (subtotal − discount) / subtotal` (0 when the subtotal is
0, in which case the validated discount is non-positive anyway). -/
def proratedBase (lt subtotal discount : ℚ) : ℚ :=
  if subtotal = 0 then 0 else lt * (subtotal - discount) / subtotal

/-- An invoice's monetary columns, as in the `invoices` table
(`subtotal`, `discount`, `cgst`, `sgst`, `igst`, `total`). -/
structure Invoice where
  subtotal : ℚ
  discount : ℚ
  cgst : ℚ
  sgst : ℚ
  igst : ℚ
  total : ℚ
deriving DecidableEq, Repr

/-- The per-line tax splits of an invoice: each line's tax is computed
on its discount-pro-rated base at its own rate. -/
def invoiceTaxes (sellerState : String) (buyerState : Option String)
    (items : List LineItem) (discount : ℚ) : List TaxSplit :=
  items.map fun it =>
    computeTax sellerState buyerState
      (proratedBase (lineTotal it) (subtotalOf items) discount) it.gst_rate

/-- Modelled from the spec: the Pricing & Totals Calculator (§4.2)
combined with the Tax Engine — the invoice-creation code is not part of
this repository.  Negative quantities/prices are rejected with
`InvalidLineItem`; a discount exceeding the subtotal is rejected with
`InvalidDiscount`; otherwise per-line taxes are computed on the
discount-pro-rated base and `total = subtotal − discount + Σ taxes`. -/
def createInvoice (sellerState : String) (buyerState : Option String)
    (items : List LineItem) (discount : ℚ) : Except BillingError Invoice :=
  if ∃ it ∈ items, it.quantity < 0 ∨ it.unit_price < 0 then
    .error .InvalidLineItem
  else if discount > subtotalOf items then .error .InvalidDiscount
  else
    .ok ⟨subtotalOf items, discount,
         ((invoiceTaxes sellerState buyerState items discount).map TaxSplit.cgst).sum,
         ((invoiceTaxes sellerState buyerState items discount).map TaxSplit.sgst).sum,
         ((invoiceTaxes sellerState buyerState items discount).map TaxSplit.igst).sum,
         subtotalOf items - discount
           + ((invoiceTaxes sellerState buyerState items discount).map TaxSplit.cgst).sum
           + ((invoiceTaxes sellerState buyerState items discount).map TaxSplit.sgst).sum
           + ((invoiceTaxes sellerState buyerState items discount).map TaxSplit.igst).sum⟩

/-! ## C3: the tax split -/

/-- Round-half-up to 2 decimals of a non-negative argument is
non-negative. -/
theorem roundHalfUp2_nonneg {x : ℚ} (hx : 0 ≤ x) : 0 ≤ roundHalfUp2 x := by
  unfold roundHalfUp2
  have h1 : (0 : ℤ) ≤ ⌊x * 100 + 1 / 2⌋ := by
    apply Int.le_floor.mpr
    push_cast
    linarith
  have h2 : (0 : ℚ) ≤ (⌊x * 100 + 1 / 2⌋ : ℚ) := by exact_mod_cast h1
  linarith

/-- Round-half-up to 2 decimals is positive as soon as the argument is
at least half a cent. -/
theorem roundHalfUp2_pos {x : ℚ} (hx : 1 / 200 ≤ x) : 0 < roundHalfUp2 x := by
  unfold roundHalfUp2
  have h1 : (1 : ℤ) ≤ ⌊x * 100 + 1 / 2⌋ := by
    apply Int.le_floor.mpr
    push_cast
    linarith
  have h2 : (1 : ℚ) ≤ (⌊x * 100 + 1 / 2⌋ : ℚ) := by exact_mod_cast h1
  linarith

/-- C3 (counterexample): the claim's exact equation `igst = s × r / 100`
and its strict positivity both fail once §4.1's round-half-up rounding
of each component to 2 decimals is modelled: at subtotal s = 0.01 and
rate r = 0.1 (both positive, distinct states) the unrounded tax is
0.00001 ≠ 0, which rounds to 0, so the stored `igst` is 0, not
`s × r / 100` and not positive. -/
theorem tax_igst_rounds_to_zero_cex :
    computeTax "MH" (some "DL") (1 / 100) (1 / 10) = ⟨0, 0, 0⟩ ∧
      (0 : ℚ) < 1 / 100 ∧ (0 : ℚ) < 1 / 10 ∧
      ((1 / 100 : ℚ) * (1 / 10) / 100 ≠ 0) := by
  have hne : ("DL" : String) ≠ "MH" := by decide
  refine ⟨?_, by norm_num, by norm_num, by norm_num⟩
  simp only [computeTax, if_neg hne, TaxSplit.mk.injEq]
  norm_num [roundHalfUp2]

/-- C3 (amended): for every line item with subtotal `s` and tax rate
`r`: when the buyer state is unknown or equals the seller state,
`cgst = sgst =` round-half-up₂`(s × r / 200)` and `igst = 0`; when the
buyer state differs, `igst =` round-half-up₂`(s × r / 100)` and
`cgst = sgst = 0`; in particular `cgst = sgst` intra-state, and
`igst > 0` inter-state whenever `s × r ≥ 1/2` — i.e. whenever the
unrounded tax `s × r / 100` is at least half a cent, the weakest
condition left standing once the rounding the counterexample exhibits
is taken into account (it subsumes the failure at `s = 0`). -/
theorem tax_engine_split (ss : String) (bs : Option String) (s r : ℚ) :
    ((bs = none ∨ bs = some ss) →
        computeTax ss bs s r =
          ⟨roundHalfUp2 (s * r / 200), roundHalfUp2 (s * r / 200), 0⟩) ∧
    (∀ b, bs = some b → b ≠ ss →
        computeTax ss bs s r = ⟨0, 0, roundHalfUp2 (s * r / 100)⟩) ∧
    ((bs = none ∨ bs = some ss) →
        (computeTax ss bs s r).cgst = (computeTax ss bs s r).sgst) ∧
    (∀ b, bs = some b → b ≠ ss → 1 / 2 ≤ s * r →
        0 < (computeTax ss bs s r).igst) := by
  refine ⟨?_, ?_, ?_, ?_⟩
  · rintro (rfl | rfl) <;> simp [computeTax]
  · rintro b rfl hb
    simp [computeTax, hb]
  · rintro (rfl | rfl) <;> simp [computeTax]
  · rintro b rfl hb hsr
    simp only [computeTax, if_neg hb]
    exact roundHalfUp2_pos (by linarith)

/-- C3 (witness): the amended theorem evaluated at seller "MH", buyer
"DL", subtotal 100, rate 18: the inter-state clause yields
`igst =` round-half-up₂`(100 × 18 / 100) = 18 > 0`. -/
theorem tax_engine_split_witness :
    computeTax "MH" (some "DL") 100 18 =
        ⟨0, 0, roundHalfUp2 (100 * 18 / 100)⟩ ∧
      0 < (computeTax "MH" (some "DL") 100 18).igst :=
  ⟨(tax_engine_split "MH" (some "DL") 100 18).2.1 "DL" rfl (by decide),
   (tax_engine_split "MH" (some "DL") 100 18).2.2.2 "DL" rfl (by decide)
     (by norm_num)⟩

/-! ## C1: the invoice total invariant -/

/-- Each component of a tax split computed on a non-negative base at a
non-negative rate is non-negative. -/
theorem computeTax_nonneg (ss : String) (bs : Option String) {s r : ℚ}
    (hs : 0 ≤ s) (hr : 0 ≤ r) :
    0 ≤ (computeTax ss bs s r).cgst ∧ 0 ≤ (computeTax ss bs s r).sgst ∧
      0 ≤ (computeTax ss bs s r).igst := by
  have h200 : 0 ≤ s * r / 200 := by positivity
  have h100 : 0 ≤ s * r / 100 := by positivity
  rcases bs with _ | b
  · simp only [computeTax]
    exact ⟨roundHalfUp2_nonneg h200, roundHalfUp2_nonneg h200, le_refl 0⟩
  · by_cases hbs : b = ss
    · simp only [computeTax, if_pos hbs]
      exact ⟨roundHalfUp2_nonneg h200, roundHalfUp2_nonneg h200, le_refl 0⟩
    · simp only [computeTax, if_neg hbs]
      exact ⟨le_refl 0, le_refl 0, roundHalfUp2_nonneg h100⟩

/-- The pro-rated taxable base is non-negative whenever the line total
is non-negative and the discount does not exceed the subtotal. -/
theorem proratedBase_nonneg {lt sub d : ℚ} (hlt : 0 ≤ lt) (hsub : 0 ≤ sub)
    (hd : d ≤ sub) : 0 ≤ proratedBase lt sub d := by
  unfold proratedBase
  split
  · exact le_refl 0
  · rename_i h
    have hpos : 0 < sub := lt_of_le_of_ne hsub (Ne.symm h)
    have : 0 ≤ sub - d := by linarith
    positivity

/-- C1 (counterexample): the claim's non-negativity of each tax
component fails on the code: neither the schema (`gst_rate` is an
unconstrained `numeric`) nor the §4.2 validation (which rejects only
negative quantities and prices) rules out a negative tax rate, and a
single line of 1 × 100 at rate −10 produces an accepted invoice with
`cgst = sgst = −5 < 0`. -/
theorem invoice_negative_rate_cex :
    createInvoice "MH" none [⟨1, 100, -10⟩] 0 =
      .ok ⟨100, 0, -5, -5, 0, 90⟩ ∧ ((-5 : ℚ) < 0) := by
  refine ⟨?_, by norm_num⟩
  norm_num [createInvoice, invoiceTaxes, subtotalOf, lineTotal,
    proratedBase, computeTax, roundHalfUp2]

/-- C1 (amended): for every invoice produced by `createInvoice`, the
stored `total` equals `subtotal − discount + cgst + sgst + igst`
exactly (hence within 1 cent) — unconditionally; and each of `cgst`,
`sgst`, `igst` is individually non-negative whenever every line item's
tax rate is non-negative, the restriction the negative-rate
counterexample forces. -/
theorem invoice_total_invariant (ss : String) (bs : Option String)
    (items : List LineItem) (d : ℚ) (inv : Invoice)
    (h : createInvoice ss bs items d = .ok inv) :
    inv.total = inv.subtotal - inv.discount + inv.cgst + inv.sgst + inv.igst ∧
      ((∀ it ∈ items, 0 ≤ it.gst_rate) →
        0 ≤ inv.cgst ∧ 0 ≤ inv.sgst ∧ 0 ≤ inv.igst) := by
  unfold createInvoice at h
  split at h
  · exact absurd h (by simp)
  · rename_i hneg
    split at h
    · exact absurd h (by simp)
    · rename_i hdisc
      push_neg at hneg hdisc
      have hok := Except.ok.inj h
      subst hok
      refine ⟨rfl, fun hr => ?_⟩
      have hq : ∀ it ∈ items, 0 ≤ it.quantity ∧ 0 ≤ it.unit_price := by
        intro it hit
        have := hneg it hit
        push_neg at this
        exact this
      have hlt : ∀ it ∈ items, 0 ≤ lineTotal it := fun it hit =>
        mul_nonneg (hq it hit).1 (hq it hit).2
      have hsub : 0 ≤ subtotalOf items := by
        apply List.sum_nonneg
        intro x hx
        rcases List.mem_map.mp hx with ⟨it, hit, rfl⟩
        exact hlt it hit
      have hbase : ∀ it ∈ items,
          0 ≤ proratedBase (lineTotal it) (subtotalOf items) d := fun it hit =>
        proratedBase_nonneg (hlt it hit) hsub hdisc
      refine ⟨?_, ?_, ?_⟩ <;>
      · apply List.sum_nonneg
        intro x hx
        rcases List.mem_map.mp hx with ⟨t, ht, rfl⟩
        rcases List.mem_map.mp ht with ⟨it, hit, rfl⟩
        have := computeTax_nonneg ss bs (hbase it hit) (hr it hit)
        first
        | exact this.1
        | exact this.2.1
        | exact this.2.2

/-- C1 (witness): the amended theorem evaluated on the concrete invoice
built from one line of 2 × 50 at rate 5 with a discount of 10,
inter-state: `subtotal = 100`, `igst =` round-half-up₂`(90 × 5 / 100) =
4.5`, `total = 94.5`; the non-negativity hypothesis is discharged on
the single rate 5. -/
theorem invoice_total_invariant_witness :
    ∃ inv, createInvoice "MH" (some "DL") [⟨2, 50, 5⟩] 10 = .ok inv ∧
      (inv.total = inv.subtotal - inv.discount + inv.cgst + inv.sgst + inv.igst ∧
        0 ≤ inv.cgst ∧ 0 ≤ inv.sgst ∧ 0 ≤ inv.igst) := by
  have he : createInvoice "MH" (some "DL") [⟨2, 50, 5⟩] 10 =
      .ok ⟨100, 10, 0, 0, 9 / 2, 189 / 2⟩ := by
    have hne : ("DL" : String) ≠ "MH" := by decide
    norm_num [createInvoice, invoiceTaxes, subtotalOf, lineTotal,
      proratedBase, computeTax, roundHalfUp2, if_neg hne]
  have hmain := invoice_total_invariant "MH" (some "DL") [⟨2, 50, 5⟩] 10 _ he
  exact ⟨_, he, hmain.1, hmain.2 (by intro it hit; fin_cases hit; norm_num)⟩

/-! ## C7: the KOT status state machine -/

/-- KOT status values, after the CHECK constraint
`status IN ('pending', 'preparing', 'ready', 'served', 'cancelled')`
on the `kots` table. -/
inductive KotStatus
  | pending
  | preparing
  | ready
  | served
  | cancelled
deriving DecidableEq, Repr, Fintype

/-- Modelled from the spec: the Order-to-Invoice state machine (§4.5) —
the transition logic is not part of this repository; the schema only
constrains the set of status values.  Permitted transitions:
`pending → preparing → ready → served` plus cancellation from any
non-terminal state; `served` and `cancelled` are terminal. -/
def kotCanTransition : KotStatus → KotStatus → Bool
  | .pending, .preparing => true
  | .preparing, .ready => true
  | .ready, .served => true
  | .pending, .cancelled => true
  | .preparing, .cancelled => true
  | .ready, .cancelled => true
  | _, _ => false

/-- C7: the order state machine admits exactly the transitions
`pending → preparing → ready → served` and
`pending/preparing/ready → cancelled`; every permitted transition is
one-directional (its reverse is forbidden), and no transition leaves
`served` or `cancelled`. -/
theorem kot_transition_spec :
    (∀ s t : KotStatus, kotCanTransition s t = true ↔
        ((s = .pending ∧ t = .preparing) ∨ (s = .preparing ∧ t = .ready) ∨
         (s = .ready ∧ t = .served) ∨
         ((s = .pending ∨ s = .preparing ∨ s = .ready) ∧ t = .cancelled))) ∧
    (∀ s t : KotStatus, kotCanTransition s t = true →
        kotCanTransition t s = false) ∧
    (∀ t : KotStatus, kotCanTransition .served t = false ∧
        kotCanTransition .cancelled t = false) := by
  refine ⟨?_, ?_, ?_⟩ <;> decide

/-- C7 (witness): the one-directionality clause applied at the
concrete transition `pending → preparing`: its reverse is forbidden. -/
theorem kot_transition_spec_witness :
    kotCanTransition .preparing .pending = false :=
  kot_transition_spec.2.1 .pending .preparing rfl

/-! ## C9: row-level security on inventory movements -/

/-- The four row-level SQL commands a policy can cover. -/
inductive SqlCmd
  | select
  | insert
  | update
  | delete
deriving DecidableEq, Repr, Fintype

/-- What a `CREATE POLICY ... FOR <cmd>` clause names: one command or
`ALL`. -/
inductive PolicyCmd
  | forAll
  | forSelect
  | forInsert
  | forUpdate
  | forDelete
deriving DecidableEq, Repr

/-- A row-level-security policy: its name, table, and `FOR` clause (all
policies in this schema are `TO authenticated`; the `USING`/`WITH
CHECK` predicates are irrelevant to which commands are covered). -/
structure RlsPolicy where
  name : String
  table : String
  cmd : PolicyCmd
deriving DecidableEq, Repr

/-- The policies declared on the `inventory_movements` table in the
schema: one `FOR SELECT` and one `FOR INSERT`, nothing else.  (No other
file of the repository adds or drops policies on this table.) -/
def inventoryMovementPolicies : List RlsPolicy :=
  [⟨"Users can read inventory movements", "inventory_movements", .forSelect⟩,
   ⟨"Users can create inventory movements", "inventory_movements", .forInsert⟩]

/-- A policy's `FOR` clause covers a command iff it is `ALL` or names
that command. -/
def policyCovers (pc : PolicyCmd) (c : SqlCmd) : Bool :=
  match pc, c with
  | .forAll, _ => true
  | .forSelect, .select => true
  | .forInsert, .insert => true
  | .forUpdate, .update => true
  | .forDelete, .delete => true
  | _, _ => false

/-- PostgreSQL row-level security is default-deny: with
`ENABLE ROW LEVEL SECURITY` on a table, a command is permitted only if
some policy on the table covers it. -/
def rlsAllows (policies : List RlsPolicy) (c : SqlCmd) : Bool :=
  policies.any fun p => policyCovers p.cmd c

/-- C9: the RLS policies on `inventory_movements` grant authenticated
users exactly SELECT and INSERT; UPDATE and DELETE are covered by no
policy, so movement rows are append-only at the access-control
layer. -/
theorem inventory_movements_rls_append_only :
    rlsAllows inventoryMovementPolicies .select = true ∧
    rlsAllows inventoryMovementPolicies .insert = true ∧
    rlsAllows inventoryMovementPolicies .update = false ∧
    rlsAllows inventoryMovementPolicies .delete = false := by
  refine ⟨?_, ?_, ?_, ?_⟩ <;> rfl

/-! ## C8: split-payment finalization -/

/-- A KOT's payment columns, as in the `kots` table: `payment_method`
(`'cash' | 'upi' | 'card' | 'split'`, nullable), the per-method amounts
`cash_amount`/`upi_amount`/`card_amount`, and the order total. -/
structure Kot where
  status : KotStatus
  payment_method : Option String
  cash_amount : ℚ
  upi_amount : ℚ
  card_amount : ℚ
  total : ℚ
deriving DecidableEq, Repr

/-- Modelled from the spec: the split-payment invariant check at
finalization time (§4.4) — the finalization code is not part of this
repository.  A KOT with `payment_method = split` whose per-method
amounts do not sum to the total within ε is rejected with
`SplitMismatch`; any other KOT passes. -/
def finalizeSplitCheck (k : Kot) : Option BillingError :=
  if k.payment_method = some "split" ∧
      eps < |k.cash_amount + k.upi_amount + k.card_amount - k.total| then
    some .SplitMismatch
  else none

/-- C8: for every KOT with `payment_method = split`, finalization
passes the split check iff `cash + upi + card` equals the total within
ε; the split cash=40, upi=30, card=20 against total=100 is rejected
with `SplitMismatch`. -/
theorem split_payment_finalization :
    (∀ k : Kot, k.payment_method = some "split" →
        (finalizeSplitCheck k = none ↔
          |k.cash_amount + k.upi_amount + k.card_amount - k.total| ≤ eps)) ∧
    finalizeSplitCheck ⟨.ready, some "split", 40, 30, 20, 100⟩ =
      some .SplitMismatch := by
  constructor
  · intro k hk
    unfold finalizeSplitCheck
    by_cases h : eps < |k.cash_amount + k.upi_amount + k.card_amount - k.total|
    · rw [if_pos ⟨hk, h⟩]
      simp [not_le.mpr h]
    · rw [if_neg fun hc => h hc.2]
      simp [not_lt.mp h]
  · unfold finalizeSplitCheck
    rw [if_pos ⟨rfl, by norm_num [eps, abs]⟩]

/-- C8 (witness): the split-check clause applied to a well-formed split
(cash=50, upi=30, card=20, total=100): it passes. -/
theorem split_payment_finalization_witness :
    finalizeSplitCheck ⟨.ready, some "split", 50, 30, 20, 100⟩ = none :=
  (split_payment_finalization.1 ⟨.ready, some "split", 50, 30, 20, 100⟩
    rfl).mpr (by norm_num [eps, abs])

/-! ## C6: the payment reconciler -/

/-- The payment-relevant columns of an invoice plus its payment rows:
`total`, the cached `amount_paid`, the derived `payment_status`
(`'unpaid' | 'partial' | 'paid'`, per the CHECK constraint), and the
amounts of its `invoice_payments` rows. -/
structure PayState where
  total : ℚ
  amount_paid : ℚ
  payment_status : String
  payments : List ℚ
deriving DecidableEq, Repr

/-- Modelled from the spec: the derived `payment_status` (§4.4):
`paid` if `amount_paid ≥ total − ε`, else `partial` if
`amount_paid > 0`, else `unpaid`. -/
def derivePaymentStatus (ap total : ℚ) : String :=
  if total - eps ≤ ap then "paid" else if 0 < ap then "partial" else "unpaid"

/-- Modelled from the spec: `apply_payment` (§4.4) — the payment
reconciler is not part of this repository, only the `invoice_payments`
table and the `amount_paid`/`payment_status` columns it maintains are.
Requires `amount > 0`; fails with `Overpayment` (leaving the state
untouched) if the cumulative `amount_paid` would exceed
`total × (1 + ε)`; otherwise appends the payment row and recomputes
`amount_paid` and `payment_status`. -/
def apply_payment (st : PayState) (amount : ℚ) :
    PayState × Option BillingError :=
  if amount ≤ 0 then (st, some .InvalidPaymentAmount)
  else if st.total * (1 + eps) < st.amount_paid + amount then
    (st, some .Overpayment)
  else
    ({ st with
        amount_paid := st.amount_paid + amount,
        payment_status := derivePaymentStatus (st.amount_paid + amount) st.total,
        payments := amount :: st.payments }, none)

/-- C6: `apply_payment` accepts only positive amounts; it fails with
`Overpayment` — leaving the state unchanged — whenever the cumulative
`amount_paid` after applying would exceed `total × (1 + ε)`; after a
successful application (starting from a non-negative `amount_paid`) the
stored `payment_status` is `paid` when `amount_paid ≥ total − ε`,
`partial` when `0 < amount_paid < total − ε`, and `unpaid` when
`amount_paid = 0` (vacuous after a successful payment); `amount_paid`
stays the sum of all payment rows; and payments of 30 then 70 against a
total of 100 yield `payment_status = "paid"` and `amount_paid = 100`. -/
theorem apply_payment_spec :
    (∀ st amt, (apply_payment st amt).2 = none → 0 < amt) ∧
    (∀ st amt, 0 < amt → st.total * (1 + eps) < st.amount_paid + amt →
        apply_payment st amt = (st, some .Overpayment)) ∧
    (∀ st amt st', apply_payment st amt = (st', none) → 0 ≤ st.amount_paid →
        ((st'.total - eps ≤ st'.amount_paid → st'.payment_status = "paid") ∧
         (0 < st'.amount_paid → st'.amount_paid < st'.total - eps →
            st'.payment_status = "partial") ∧
         (st'.amount_paid = 0 → st'.payment_status = "unpaid"))) ∧
    (∀ st amt st', apply_payment st amt = (st', none) →
        st.amount_paid = st.payments.sum →
        st'.amount_paid = st'.payments.sum) ∧
    ((apply_payment ((apply_payment ⟨100, 0, "unpaid", []⟩ 30).1) 70).1.payment_status
        = "paid" ∧
     (apply_payment ((apply_payment ⟨100, 0, "unpaid", []⟩ 30).1) 70).1.amount_paid
        = 100) := by
  have hstep : ∀ st amt st', apply_payment st amt = (st', none) →
      ¬amt ≤ 0 ∧
        st' = { st with
          amount_paid := st.amount_paid + amt,
          payment_status := derivePaymentStatus (st.amount_paid + amt) st.total,
          payments := amt :: st.payments } := by
    intro st amt st' h
    unfold apply_payment at h
    by_cases h1 : amt ≤ 0
    · rw [if_pos h1] at h
      simp at h
    · rw [if_neg h1] at h
      by_cases h2 : st.total * (1 + eps) < st.amount_paid + amt
      · rw [if_pos h2] at h
        simp at h
      · rw [if_neg h2] at h
        refine ⟨h1, ?_⟩
        have := congrArg Prod.fst h
        simpa using this.symm
  refine ⟨?_, ?_, ?_, ?_, ?_⟩
  · intro st amt h
    unfold apply_payment at h
    by_cases h1 : amt ≤ 0
    · rw [if_pos h1] at h
      simp at h
    · exact not_le.mp h1
  · intro st amt h1 h2
    unfold apply_payment
    rw [if_neg (not_le.mpr h1), if_pos h2]
  · intro st amt st' h hap
    obtain ⟨h1, rfl⟩ := hstep st amt st' h
    have hpos : 0 < st.amount_paid + amt := by
      have := not_le.mp h1
      linarith
    refine ⟨?_, ?_, ?_⟩
    · intro hp
      simp only [derivePaymentStatus, if_pos hp]
    · intro _ hlt
      simp only at hlt
      simp only [derivePaymentStatus, if_neg (not_le.mpr hlt), if_pos hpos]
    · intro h0
      simp only at h0
      exact absurd h0 (ne_of_gt hpos)
  · intro st amt st' h hsum
    obtain ⟨_, rfl⟩ := hstep st amt st' h
    simp [List.sum_cons, hsum]
    ring
  · constructor <;>
      norm_num [apply_payment, derivePaymentStatus, eps]

/-- C6 (witness): the spec's own example — a payment of 150 against a
total of 100 fails with `Overpayment` and the state is unchanged
(`100 × (1 + ε) = 101 < 0 + 150`). -/
theorem apply_payment_spec_witness :
    apply_payment ⟨100, 0, "unpaid", []⟩ 150 =
      (⟨100, 0, "unpaid", []⟩, some .Overpayment) :=
  apply_payment_spec.2.1 ⟨100, 0, "unpaid", []⟩ 150 (by norm_num)
    (by norm_num [eps])

/-! ## C4: the inventory ledger -/

/-- Movement types, after the CHECK constraint
`movement_type IN ('purchase', 'sale', 'adjustment', 'consumption')`
on `inventory_movements`. -/
inductive MovementType
  | purchase
  | sale
  | adjustment
  | consumption
deriving DecidableEq, Repr

/-- An `inventory_movements` row: product, type and signed quantity. -/
structure Movement where
  product_id : String
  movement_type : MovementType
  quantity : ℚ
deriving DecidableEq, Repr

/-- The ledger's persistent state: the cached `stock_quantity` column
of every product, and the append-only `inventory_movements` log. -/
structure LedgerState where
  stock_quantity : String → ℚ
  movements : List Movement

/-- The signed sum of all movements referencing product `p`. -/
def movementSum (ms : List Movement) (p : String) : ℚ :=
  (ms.map fun m => if m.product_id = p then m.quantity else 0).sum

/-- The ledger invariant: every product's cached `stock_quantity`
equals the signed sum of the movements referencing it. -/
def LedgerInv (st : LedgerState) : Prop :=
  ∀ p, st.stock_quantity p = movementSum st.movements p

/-- Modelled from the spec: `record_movement` (§4.3) — the Inventory
Ledger is not part of this repository, only the `products` and
`inventory_movements` tables it maintains are.  Appends a movement and
atomically updates the cached stock counter. -/
def record_movement (st : LedgerState) (p : String) (t : MovementType)
    (q : ℚ) : LedgerState :=
  { stock_quantity := fun x =>
      if x = p then st.stock_quantity x + q else st.stock_quantity x,
    movements := ⟨p, t, q⟩ :: st.movements }

/-- Modelled from the spec: the flows that touch inventory (§4.3).
Order finalization emits `sale` (direct sale of `−quantity_sold`) and
`consumption` (`−quantity_required × item_quantity_sold` per
ingredient) movements; purchases emit positive `purchase` movements;
cancellation/refund emits a compensating movement of equal magnitude
and opposite sign.  None of them writes `stock_quantity` directly. -/
inductive LedgerOp
  | saleOut (p : String) (quantity_sold : ℚ)
  | consume (p : String) (quantity_required item_quantity_sold : ℚ)
  | receivePurchase (p : String) (quantity : ℚ)
  | adjust (p : String) (quantity : ℚ)
  | reversal (p : String) (t : MovementType) (original_quantity : ℚ)
deriving DecidableEq, Repr

/-- Every inventory-touching flow goes through `record_movement`. -/
def applyLedgerOp (op : LedgerOp) (st : LedgerState) : LedgerState :=
  match op with
  | .saleOut p q => record_movement st p .sale (-q)
  | .consume p qr iq => record_movement st p .consumption (-(qr * iq))
  | .receivePurchase p q => record_movement st p .purchase q
  | .adjust p q => record_movement st p .adjustment q
  | .reversal p t q => record_movement st p t (-q)

/-- A whole sequence of operations, applied left to right. -/
def applyLedgerOps (ops : List LedgerOp) (st : LedgerState) : LedgerState :=
  ops.foldl (fun s op => applyLedgerOp op s) st

/-- `record_movement` preserves the ledger invariant. -/
theorem record_movement_inv {st : LedgerState} (p : String)
    (t : MovementType) (q : ℚ) (h : LedgerInv st) :
    LedgerInv (record_movement st p t q) := by
  intro x
  show (if x = p then st.stock_quantity x + q else st.stock_quantity x)
      = movementSum (⟨p, t, q⟩ :: st.movements) x
  rw [movementSum, List.map_cons, List.sum_cons]
  by_cases hx : x = p
  · subst hx
    rw [if_pos rfl, if_pos rfl, h x]
    show movementSum st.movements x + q = q + movementSum st.movements x
    ring
  · rw [if_neg hx, if_neg fun hh => hx hh.symm, h x]
    show movementSum st.movements x = 0 + movementSum st.movements x
    ring

/-- C4: (i) after any sequence of operations starting from a consistent
state, every product's cached `stock_quantity` equals the signed sum of
the movements referencing it; (ii) a movement followed by its
compensating reversal leaves every product's cached stock exactly where
it started (net effect zero); (iii) every operation mutates the state
only through `record_movement` — order and purchase flows never write
`stock_quantity` directly. -/
theorem inventory_ledger_invariant :
    (∀ ops st, LedgerInv st → LedgerInv (applyLedgerOps ops st)) ∧
    (∀ st (p : String) (t : MovementType) (q : ℚ) (x : String),
        (record_movement (record_movement st p t q) p t (-q)).stock_quantity x
          = st.stock_quantity x) ∧
    (∀ op st, ∃ p t q, applyLedgerOp op st = record_movement st p t q) := by
  refine ⟨?_, ?_, ?_⟩
  · intro ops
    induction ops with
    | nil => intro st h; exact h
    | cons op rest ih =>
      intro st h
      exact ih _ (by cases op <;> exact record_movement_inv _ _ _ h)
  · intro st p t q x
    show (if x = p
        then (if x = p then st.stock_quantity x + q else st.stock_quantity x) + -q
        else if x = p then st.stock_quantity x + q else st.stock_quantity x)
      = st.stock_quantity x
    by_cases hx : x = p
    · rw [if_pos hx, if_pos hx]
      ring
    · rw [if_neg hx, if_neg hx]
  · intro op st
    cases op <;> exact ⟨_, _, _, rfl⟩

/-- C4 (witness): the invariant clause evaluated on a concrete run — a
purchase of 10 units of flour, a sale of 3, a cancellation reversal of
that sale — from the empty consistent state, checked at product
"flour". -/
theorem inventory_ledger_invariant_witness :
    (applyLedgerOps
        [.receivePurchase "flour" 10, .saleOut "flour" 3,
         .reversal "flour" .sale (-3)]
        ⟨fun _ => 0, []⟩).stock_quantity "flour"
      = movementSum (applyLedgerOps
          [.receivePurchase "flour" 10, .saleOut "flour" 3,
           .reversal "flour" .sale (-3)]
          ⟨fun _ => 0, []⟩).movements "flour" :=
  inventory_ledger_invariant.1
    [.receivePurchase "flour" 10, .saleOut "flour" 3,
     .reversal "flour" .sale (-3)]
    ⟨fun _ => 0, []⟩ (fun _ => rfl) "flour"

/-! ## C5: cascade deletion from KOTs to invoices -/

/-- An `invoices` row's identity columns: its id and its `kot_id`
foreign key (nullable), which the migration
`20251129190055_add_cascade_delete_kots_to_invoices.sql` re-declares
with `ON DELETE CASCADE`. -/
structure InvoiceRow where
  id : String
  kot_id : Option String
deriving DecidableEq, Repr

/-- An `invoice_items` or `invoice_payments` row: its id and its
`invoice_id` foreign key, declared `ON DELETE CASCADE` in the
schema. -/
structure ChildRow where
  id : String
  invoice_id : String
deriving DecidableEq, Repr

/-- The store fragment the cascade concerns. -/
structure Db where
  kots : List String
  invoices : List InvoiceRow
  invoice_items : List ChildRow
  invoice_payments : List ChildRow
deriving DecidableEq, Repr

/-- The ids of the invoices that deleting KOT `k` cascades to. -/
def cascadedInvoiceIds (db : Db) (k : String) : List String :=
  (db.invoices.filter fun i => decide (i.kot_id = some k)).map InvoiceRow.id

/-- Deleting a KOT under the declared foreign keys: the kot row goes;
`invoices_kot_id_fkey ... ON DELETE CASCADE` deletes every invoice
whose `kot_id` references it; the `ON DELETE CASCADE` constraints on
`invoice_items.invoice_id` and `invoice_payments.invoice_id` in turn
delete the children of every cascaded invoice. -/
def deleteKot (db : Db) (k : String) : Db :=
  { kots := db.kots.filter fun x => decide (x ≠ k),
    invoices := db.invoices.filter fun i => decide (i.kot_id ≠ some k),
    invoice_items :=
      db.invoice_items.filter fun c => decide (c.invoice_id ∉ cascadedInvoiceIds db k),
    invoice_payments :=
      db.invoice_payments.filter fun c => decide (c.invoice_id ∉ cascadedInvoiceIds db k) }

/-- Referential integrity of the fragment: every item and payment row
references an existing invoice. -/
def DbIntegrity (db : Db) : Prop :=
  (∀ c ∈ db.invoice_items, ∃ i ∈ db.invoices, i.id = c.invoice_id) ∧
  (∀ c ∈ db.invoice_payments, ∃ i ∈ db.invoices, i.id = c.invoice_id)

/-- C5: deleting a KOT deletes every invoice derived from it together
with all of that invoice's items and payment rows, and leaves no
orphans: referential integrity is preserved, no surviving invoice
references the deleted KOT, and every child row of a cascaded invoice
is gone. -/
theorem kot_cascade_delete (db : Db) (k : String) (hint : DbIntegrity db) :
    (∀ i ∈ (deleteKot db k).invoices, i.kot_id ≠ some k) ∧
    k ∉ (deleteKot db k).kots ∧
    DbIntegrity (deleteKot db k) ∧
    (∀ c ∈ db.invoice_items, c.invoice_id ∈ cascadedInvoiceIds db k →
        c ∉ (deleteKot db k).invoice_items) ∧
    (∀ c ∈ db.invoice_payments, c.invoice_id ∈ cascadedInvoiceIds db k →
        c ∉ (deleteKot db k).invoice_payments) := by
  have hsurv : ∀ c : ChildRow, (∃ i ∈ db.invoices, i.id = c.invoice_id) →
      c.invoice_id ∉ cascadedInvoiceIds db k →
      ∃ i ∈ (deleteKot db k).invoices, i.id = c.invoice_id := by
    rintro c ⟨i, hi, hid⟩ hnot
    refine ⟨i, ?_, hid⟩
    simp only [deleteKot, List.mem_filter, decide_eq_true_eq]
    refine ⟨hi, fun hk => hnot ?_⟩
    rw [← hid]
    exact List.mem_map.mpr ⟨i, List.mem_filter.mpr ⟨hi, by simp [hk]⟩, rfl⟩
  refine ⟨?_, ?_, ⟨?_, ?_⟩, ?_, ?_⟩
  · intro i hi
    have := (List.mem_filter.mp hi).2
    simpa using this
  · intro hk
    have := (List.mem_filter.mp hk).2
    simp at this
  · intro c hc
    have hm := List.mem_filter.mp hc
    exact hsurv c (hint.1 c hm.1) (by simpa using hm.2)
  · intro c hc
    have hm := List.mem_filter.mp hc
    exact hsurv c (hint.2 c hm.1) (by simpa using hm.2)
  · intro c _ hcas hc
    have := (List.mem_filter.mp hc).2
    simp only [decide_eq_true_eq] at this
    exact this hcas
  · intro c _ hcas hc
    have := (List.mem_filter.mp hc).2
    simp only [decide_eq_true_eq] at this
    exact this hcas

/-- C5 (witness): the cascade evaluated on a concrete store — deleting
"K1", whose invoice "I1" has one item and one payment, preserves
integrity and removes "I1"'s children, while "I2" (of "K2") keeps
its item. -/
theorem kot_cascade_delete_witness :
    DbIntegrity (deleteKot
      ⟨["K1", "K2"], [⟨"I1", some "K1"⟩, ⟨"I2", some "K2"⟩],
       [⟨"A", "I1"⟩, ⟨"B", "I2"⟩], [⟨"P1", "I1"⟩]⟩ "K1") ∧
    "K1" ∉ (deleteKot
      ⟨["K1", "K2"], [⟨"I1", some "K1"⟩, ⟨"I2", some "K2"⟩],
       [⟨"A", "I1"⟩, ⟨"B", "I2"⟩], [⟨"P1", "I1"⟩]⟩ "K1").kots :=
  ⟨(kot_cascade_delete
      ⟨["K1", "K2"], [⟨"I1", some "K1"⟩, ⟨"I2", some "K2"⟩],
       [⟨"A", "I1"⟩, ⟨"B", "I2"⟩], [⟨"P1", "I1"⟩]⟩ "K1"
      ⟨by decide, by decide⟩).2.2.1,
   (kot_cascade_delete
      ⟨["K1", "K2"], [⟨"I1", some "K1"⟩, ⟨"I2", some "K2"⟩],
       [⟨"A", "I1"⟩, ⟨"B", "I2"⟩], [⟨"P1", "I1"⟩]⟩ "K1"
      ⟨by decide, by decide⟩).2.1⟩

/-! ## C2 and C10: the create-employee edge function -/

/-- A `profiles` row (id, email, full_name, role). -/
structure ProfileRow where
  id : String
  email : String
  full_name : String
  role : String
deriving DecidableEq, Repr

/-- An `employees` row (id, email, full_name, role, phone, is_active,
created_by). -/
structure EmployeeRow where
  id : String
  email : String
  full_name : String
  role : String
  phone : Option String
  is_active : Bool
  created_by : Option String
deriving DecidableEq, Repr

/-- The state the create-employee function mutates: the auth users, the
`profiles` table and the `employees` table. -/
structure AuthStore where
  authUsers : List String
  profiles : List ProfileRow
  employees : List EmployeeRow
deriving DecidableEq, Repr

/-- The request to `POST /create-employee`: the `Authorization` header
and the JSON body fields. -/
structure CeRequest where
  authHeader : Option String
  email : Option String
  password : Option String
  full_name : Option String
  role : Option String
  phone : Option String
  is_active : Option Bool
  created_by : Option String
deriving DecidableEq, Repr

/-- The outcomes of the external calls the handler makes, beyond the
store itself: whether the bearer token resolves to a user
(`supabaseAdmin.auth.getUser`), whether the `get_user_role` RPC itself
errors, whether `auth.admin.createUser` fails, the id it mints on
success, and whether each of the two inserts fails. -/
structure CeEnv where
  tokenUser : Option String
  roleRpcFails : Bool
  createUserFails : Bool
  newUserId : String
  profileInsertFails : Bool
  employeeInsertFails : Bool
deriving DecidableEq, Repr

/-- The response the handler produces: HTTP status and the `success`
field of the JSON body (the `catch` block returns status 400 with
`success: false`; the happy path returns `success: true`). -/
structure CeResponse where
  status : Nat
  success : Bool
deriving DecidableEq, Repr

/-- The `get_user_role(user_id)` SQL function of migration
`20251129182033`: `SELECT role FROM profiles WHERE id = user_id
LIMIT 1` (security definer, so RLS does not filter the read). -/
def get_user_role (profiles : List ProfileRow) (user_id : String) :
    Option String :=
  (profiles.find? fun p => p.id = user_id).map ProfileRow.role

/-- The create-employee handler of
`supabase/functions/create-employee/index.ts`, in its execution order:
reject when the `Authorization` header is absent, when the token does
not resolve to a user, when the `get_user_role` RPC errors, when it
returns no role, when the role is not `admin`, or when any of `email`,
`password`, `full_name`, `role` is missing — each rejection reaches the
`catch` block, which answers 400 / `success: false` without undoing
anything.  Then it creates the auth user, inserts the `profiles` row
and inserts the `employees` row (both under the new auth user's id),
throwing — without compensation — if an insert fails. -/
def createEmployee (env : CeEnv) (st : AuthStore) (req : CeRequest) :
    AuthStore × CeResponse :=
  match req.authHeader with
  | none => (st, ⟨400, false⟩)
  | some _ =>
    match env.tokenUser with
    | none => (st, ⟨400, false⟩)
    | some uid =>
      if env.roleRpcFails then (st, ⟨400, false⟩)
      else
        match get_user_role st.profiles uid with
        | none => (st, ⟨400, false⟩)
        | some r =>
          if r ≠ "admin" then (st, ⟨400, false⟩)
          else
            match req.email, req.password, req.full_name, req.role with
            | some em, some _, some fn, some rl =>
              if env.createUserFails then (st, ⟨400, false⟩)
              else
                let st1 : AuthStore :=
                  { st with authUsers := env.newUserId :: st.authUsers }
                if env.profileInsertFails then (st1, ⟨400, false⟩)
                else
                  let st2 : AuthStore :=
                    { st1 with profiles :=
                        ⟨env.newUserId, em, fn, rl⟩ :: st1.profiles }
                  if env.employeeInsertFails then (st2, ⟨400, false⟩)
                  else
                    ({ st2 with employees :=
                        ⟨env.newUserId, em, fn, rl, req.phone,
                         req.is_active.getD true, req.created_by⟩
                          :: st2.employees }, ⟨200, true⟩)
            | _, _, _, _ => (st, ⟨400, false⟩)

/-- C2 (counterexample): a rejected create-employee mutation that does
NOT leave previously committed state untouched.  An admin calls the
function with a valid request; `auth.admin.createUser` succeeds, then
the `profiles` insert fails.  The handler answers 400 /
`success: false`, yet the newly created auth user persists — a partial
subset of the multi-step mutation survives a rejected call. -/
theorem create_employee_partial_persist_cex :
    (createEmployee
        ⟨some "admin-uid", false, false, "new-uid", true, false⟩
        ⟨["admin-uid"], [⟨"admin-uid", "a@x", "Admin", "admin"⟩], []⟩
        ⟨some "Bearer t", some "e@x", some "pw", some "New Person",
         some "sales_person", none, none, none⟩).2
      = ⟨400, false⟩ ∧
    (createEmployee
        ⟨some "admin-uid", false, false, "new-uid", true, false⟩
        ⟨["admin-uid"], [⟨"admin-uid", "a@x", "Admin", "admin"⟩], []⟩
        ⟨some "Bearer t", some "e@x", some "pw", some "New Person",
         some "sales_person", none, none, none⟩).1.authUsers
      = ["new-uid", "admin-uid"] := by
  exact ⟨rfl, rfl⟩

/-- C2 (amended): every rejection of `createEmployee` that is not a
post-creation insert failure — i.e. every validation failure (missing
header, unresolved token, role lookup error or non-admin role, missing
body field) and every `createUser` failure — is detected before any
mutation and leaves the store exactly as it was.  (The original claim's
"no partial subset of a multi-step mutation persists" clause is the
part the counterexample refutes: a failing `profiles` or `employees`
insert leaves the earlier steps committed.) -/
theorem create_employee_validation_no_mutation
    (env : CeEnv) (st : AuthStore) (req : CeRequest)
    (hp : env.profileInsertFails = false)
    (he : env.employeeInsertFails = false)
    (hrej : (createEmployee env st req).2.success = false) :
    (createEmployee env st req).1 = st := by
  unfold createEmployee
  unfold createEmployee at hrej
  match hh : req.authHeader with
  | none => rfl
  | some _ =>
    simp only [hh] at hrej ⊢
    match ht : env.tokenUser with
    | none => rfl
    | some uid =>
      simp only [ht] at hrej ⊢
      by_cases hr : env.roleRpcFails
      · rw [if_pos hr]
      · rw [if_neg hr] at hrej ⊢
        match hg : get_user_role st.profiles uid with
        | none => rfl
        | some role =>
          simp only [hg] at hrej ⊢
          by_cases ha : role ≠ "admin"
          · rw [if_pos ha]
          · rw [if_neg ha] at hrej ⊢
            match h1 : req.email, h2 : req.password,
                h3 : req.full_name, h4 : req.role with
            | some em, some pw, some fn, some rl =>
              simp only [h1, h2, h3, h4] at hrej ⊢
              by_cases hc : env.createUserFails
              · rw [if_pos hc]
              · rw [if_neg hc] at hrej ⊢
                rw [hp] at hrej ⊢
                rw [if_neg Bool.false_ne_true] at hrej ⊢
                rw [he] at hrej ⊢
                rw [if_neg Bool.false_ne_true] at hrej ⊢
                simp at hrej
            | none, _, _, _ => rfl
            | some _, none, _, _ => rfl
            | some _, some _, none, _ => rfl
            | some _, some _, some _, none => rfl

/-- C2 (witness): the amended theorem at a concrete rejected request —
no `Authorization` header — against a one-admin store: the store is
returned untouched. -/
theorem create_employee_validation_no_mutation_witness :
    (createEmployee
        ⟨some "admin-uid", false, false, "new-uid", false, false⟩
        ⟨["admin-uid"], [⟨"admin-uid", "a@x", "Admin", "admin"⟩], []⟩
        ⟨none, some "e@x", some "pw", some "New Person",
         some "sales_person", none, none, none⟩).1
      = ⟨["admin-uid"], [⟨"admin-uid", "a@x", "Admin", "admin"⟩], []⟩ :=
  create_employee_validation_no_mutation
    ⟨some "admin-uid", false, false, "new-uid", false, false⟩
    ⟨["admin-uid"], [⟨"admin-uid", "a@x", "Admin", "admin"⟩], []⟩
    ⟨none, some "e@x", some "pw", some "New Person",
     some "sales_person", none, none, none⟩ rfl rfl rfl

/-- C10: `createEmployee` answers 400 / `success: false` and mutates
nothing when the request lacks an `Authorization` header, when the
token does not resolve to a user, when the caller's role looked up via
`get_user_role` is anything other than `admin` (no role found
included), or when any of `email`, `password`, `full_name`, `role` is
missing; and on success the `profiles` row, the `employees` row and the
auth user it created all share the newly minted user id. -/
theorem create_employee_authorization :
    (∀ env st req, req.authHeader = none →
        createEmployee env st req = (st, ⟨400, false⟩)) ∧
    (∀ env st req, req.authHeader ≠ none → env.tokenUser = none →
        createEmployee env st req = (st, ⟨400, false⟩)) ∧
    (∀ env st req uid, env.tokenUser = some uid →
        env.roleRpcFails = false →
        get_user_role st.profiles uid ≠ some "admin" →
        createEmployee env st req = (st, ⟨400, false⟩)) ∧
    (∀ env st req, (req.email = none ∨ req.password = none ∨
        req.full_name = none ∨ req.role = none) →
        createEmployee env st req = (st, ⟨400, false⟩)) ∧
    (∀ env st req st' resp, createEmployee env st req = (st', resp) →
        resp.success = true →
        (st'.profiles.head?.map ProfileRow.id = some env.newUserId ∧
         st'.employees.head?.map EmployeeRow.id = some env.newUserId ∧
         env.newUserId ∈ st'.authUsers)) := by
  refine ⟨?_, ?_, ?_, ?_, ?_⟩
  · intro env st req h
    unfold createEmployee
    rw [h]
  · intro env st req hne ht
    unfold createEmployee
    match hh : req.authHeader with
    | none => exact absurd hh hne
    | some _ =>
      rw [ht]
  · intro env st req uid ht hr hrole
    unfold createEmployee
    repeat' split
    all_goals first | rfl | simp_all
  · intro env st req hmiss
    unfold createEmployee
    repeat' split
    all_goals
      first
      | rfl
      | (rcases hmiss with h | h | h | h <;> simp_all)
  · intro env st req st' resp h hsucc
    unfold createEmployee at h
    repeat' split at h
    all_goals
      injection h with h1 h2
    all_goals
      subst h1
    all_goals
      subst h2
    all_goals simp_all

/-- C10 (witness): the authorization theorem at concrete inputs — a
non-admin ("sales-uid", role `sales_person`) calling with a valid token
gets 400 / `success: false` and the store back unchanged. -/
theorem create_employee_authorization_witness :
    createEmployee
        ⟨some "sales-uid", false, false, "new-uid", false, false⟩
        ⟨["sales-uid"], [⟨"sales-uid", "s@x", "Sales", "sales_person"⟩], []⟩
        ⟨some "Bearer t", some "e@x", some "pw", some "New Person",
         some "sales_person", none, none, none⟩
      = (⟨["sales-uid"], [⟨"sales-uid", "s@x", "Sales", "sales_person"⟩], []⟩,
         ⟨400, false⟩) :=
  create_employee_authorization.2.2.1
    ⟨some "sales-uid", false, false, "new-uid", false, false⟩
    ⟨["sales-uid"], [⟨"sales-uid", "s@x", "Sales", "sales_person"⟩], []⟩
    ⟨some "Bearer t", some "e@x", some "pw", some "New Person",
     some "sales_person", none, none, none⟩
    "sales-uid" rfl rfl (by decide)
